import Mathlib

/-!
Verification of the table-driven dungeon generator.

The development shallowly embeds the generator's core: dice utilities
(`roll_dice`, `roll_on_table` from utils/dice.py), the Room and Dungeon
records with their serialization (models/room-model.py, models/dungeon.py),
the room generator with its feature dispatch and exit parsing
(generators/room-generator.py), and the dungeon generator
(generators/dungeon_generator.py).

Randomness is modelled by an explicit stream `rolls : Nat -> Int` giving the
value returned by the i-th call to the process-wide random source, together
with a cursor `k : Nat` threaded through every computation.  The table store
(file_handler.load_table) is modelled as a function
`String -> Option ProbabilityTable`: `none` is the NotFound result.
-/

/-- One weighted outcome of a probability table: a name and inclusive
percentile bounds, with the optional `roll_again` annotation flag. -/
structure TableEntry where
  name : String
  min : Int
  max : Int
  roll_again : Option Bool := none
deriving DecidableEq

/-- A probability table as the generator consumes it: the ordered entry list
found under the "entries" key of a table file. -/
structure ProbabilityTable where
  entries : List TableEntry
deriving DecidableEq

/-- Test whether the drawn roll falls in an entry's inclusive range,
mirroring the comparison `entry["min"] <= roll <= entry["max"]`. -/
def in_range (roll : Int) (e : TableEntry) : Bool :=
  decide (e.min ≤ roll) && decide (roll ≤ e.max)

/-- The scan loop of roll_on_table: return the first entry in declared order
whose range contains the roll. -/
def scan_entries (roll : Int) : List TableEntry → Option TableEntry
  | [] => none
  | e :: rest => if in_range roll e then some e else scan_entries roll rest

/-- roll_on_table (utils/dice.py) with the drawn d100 value made an explicit
argument: empty table yields None; otherwise the first entry whose range
contains the roll; otherwise the last entry as fallback. -/
def roll_on_table (roll : Int) (table_entries : List TableEntry) : Option TableEntry :=
  if table_entries.isEmpty then none
  else
    match scan_entries roll table_entries with
    | some entry => some entry
    | none => table_entries.getLast?

/-- roll_on_table as executed: it draws its d100 value from the stream only
after the emptiness check, so an empty table consumes no roll. -/
def roll_on_table_draw (rolls : Nat → Int) (k : Nat) (table_entries : List TableEntry) :
    Option TableEntry × Nat :=
  if table_entries.isEmpty then (none, k)
  else (roll_on_table (rolls k) table_entries, k + 1)

/-- Sum of the next `n` stream values starting at cursor `k`, modelling
`sum(random.randint(1, sides) for _ in range(num_dice))`. -/
def sum_rolls (rolls : Nat → Int) (k : Nat) : Nat → Int
  | 0 => 0
  | n + 1 => rolls k + sum_rolls rolls (k + 1) n

/-- roll_dice (utils/dice.py): non-positive dice count or sides return the
modifier unchanged without drawing; otherwise the sum of the draws plus the
modifier. -/
def roll_dice (rolls : Nat → Int) (k : Nat) (num_dice sides modifier : Int) : Int × Nat :=
  if num_dice ≤ 0 ∨ sides ≤ 0 then (modifier, k)
  else (sum_rolls rolls k num_dice.toNat + modifier, k + num_dice.toNat)

/- Facts about the scan loop shared by several claims. -/

theorem scan_entries_eq_none (roll : Int) :
    ∀ (l : List TableEntry), (∀ e ∈ l, in_range roll e = false) → scan_entries roll l = none := by
  intro l h
  induction l with
  | nil => rfl
  | cons e rest ih =>
    have he : in_range roll e = false := h e (List.mem_cons_self e rest)
    simp only [scan_entries, he, Bool.false_eq_true, if_false]
    exact ih (fun x hx => h x (List.mem_cons_of_mem e hx))

theorem scan_entries_first (roll : Int) :
    ∀ (l : List TableEntry) (i : Nat) (hi : i < l.length),
      in_range roll (l.get ⟨i, hi⟩) = true →
      (∀ (j : Nat) (hj : j < i), in_range roll (l.get ⟨j, Nat.lt_trans hj hi⟩) = false) →
      scan_entries roll l = some (l.get ⟨i, hi⟩) := by
  intro l
  induction l with
  | nil => intro i hi; exact absurd hi (Nat.not_lt_zero i)
  | cons e rest ih =>
    intro i hi hin hfirst
    cases i with
    | zero =>
      simp only [List.get] at hin ⊢
      simp [scan_entries, hin]
    | succ i' =>
      have h0 : in_range roll e = false := hfirst 0 (Nat.succ_pos i')
      simp only [List.get] at hfirst ⊢
      simp only [scan_entries, h0, Bool.false_eq_true, if_false]
      exact ih i' (Nat.lt_of_succ_lt_succ hi) hin
        (fun j hj => hfirst (j + 1) (Nat.succ_lt_succ hj))

theorem scan_entries_mem (roll : Int) :
    ∀ (l : List TableEntry) (e : TableEntry), scan_entries roll l = some e → e ∈ l := by
  intro l
  induction l with
  | nil => intro e h; exact absurd h (by simp [scan_entries])
  | cons x rest ih =>
    intro e h
    simp only [scan_entries] at h
    by_cases hx : in_range roll x = true
    · simp [hx] at h
      exact h ▸ List.mem_cons_self x rest
    · simp [hx] at h
      exact List.mem_cons_of_mem x (ih e h)

theorem roll_on_table_some_mem (roll : Int) (l : List TableEntry) (hne : l ≠ []) :
    ∃ e, roll_on_table roll l = some e ∧ e ∈ l := by
  have hempty : l.isEmpty = false := by
    cases l with
    | nil => exact absurd rfl hne
    | cons x rest => rfl
  unfold roll_on_table
  rw [hempty]
  simp only [Bool.false_eq_true, if_false]
  cases hscan : scan_entries roll l with
  | some e => exact ⟨e, rfl, scan_entries_mem roll l e hscan⟩
  | none =>
    refine ⟨l.getLast hne, ?_, List.getLast_mem hne⟩
    rw [List.getLast?_eq_getLast l hne]

/-- C1: resolving an empty entry sequence returns None; for a non-empty
sequence the result is the first entry in declared order whose inclusive
range contains the drawn roll, and when no range contains the roll the last
entry of the sequence is returned (so a non-empty sequence never resolves to
None). -/
theorem claim_C1 (roll : Int) (entries : List TableEntry) :
    (roll_on_table roll entries = none ↔ entries = []) ∧
    (∀ (i : Nat) (hi : i < entries.length),
      in_range roll (entries.get ⟨i, hi⟩) = true →
      (∀ (j : Nat) (hj : j < i), in_range roll (entries.get ⟨j, Nat.lt_trans hj hi⟩) = false) →
      roll_on_table roll entries = some (entries.get ⟨i, hi⟩)) ∧
    ((∀ e ∈ entries, in_range roll e = false) → ∀ (hne : entries ≠ []),
      roll_on_table roll entries = some (entries.getLast hne)) := by
  refine ⟨?_, ?_, ?_⟩
  · constructor
    · intro h
      by_contra hne
      obtain ⟨e, he, _⟩ := roll_on_table_some_mem roll entries hne
      rw [he] at h
      exact Option.noConfusion h
    · intro h
      subst h
      rfl
  · intro i hi hin hfirst
    have hne : entries ≠ [] := by
      intro h
      subst h
      exact absurd hi (Nat.not_lt_zero i)
    have hempty : entries.isEmpty = false := by
      cases entries with
      | nil => exact absurd rfl hne
      | cons x rest => rfl
    unfold roll_on_table
    rw [hempty]
    simp only [Bool.false_eq_true, if_false]
    rw [scan_entries_first roll entries i hi hin hfirst]
  · intro hnone hne
    have hempty : entries.isEmpty = false := by
      cases entries with
      | nil => exact absurd rfl hne
      | cons x rest => rfl
    unfold roll_on_table
    rw [hempty]
    simp only [Bool.false_eq_true, if_false]
    rw [scan_entries_eq_none roll entries hnone]
    rw [List.getLast?_eq_getLast entries hne]

/-- Entries covering only 1 to 90, used to exercise the gap fallback. -/
def gap_entries : List TableEntry :=
  [{ name := "A", min := 1, max := 50 }, { name := "B", min := 51, max := 90 }]

/-- A roll of 95 lands in the 91 to 100 gap of gap_entries and resolves to
the last entry. -/
theorem claim_C1_witness :
    roll_on_table 95 gap_entries = some { name := "B", min := 51, max := 90, roll_again := none } := by
  have h := (claim_C1 95 gap_entries).2.2 (by decide) (by decide)
  exact h.trans (by rfl)

/-- Python's truthiness coercion `xs or []` / `xs or { }` applied to an
optional list argument: None and the empty collection both give the empty
collection. -/
def py_or_list {α : Type} (x : Option (List α)) : List α :=
  match x with
  | none => []
  | some l => if l.isEmpty then [] else l

@[simp]
theorem py_or_list_some {α : Type} (l : List α) : py_or_list (some l) = l := by
  cases l <;> rfl

/-- A Room record (models/room-model.py): a main feature name, an ordered
details mapping, an exit list, and an id set by the owning dungeon. -/
structure Room where
  id : Option Int := none
  main_feature : Option String := none
  details : List (String × String) := []
  exits : List String := []
deriving DecidableEq

/-- Room.__init__: `details or { }` and `exits or []` coerce None/empty to
the empty collection; id starts unset. -/
def Room.make (main_feature : Option String) (details : Option (List (String × String)))
    (exits : Option (List String)) : Room :=
  { id := none
    main_feature := main_feature
    details := py_or_list details
    exits := py_or_list exits }

/-- Python str.capitalize: first character upper-cased, the rest lower-cased. -/
def py_capitalize (s : String) : String :=
  (s.take 1).toUpper ++ (s.drop 1).toLower

/-- The final line of Room.description: the exits listing, or "No exits"
when the exit list is empty. -/
def Room.exits_line (r : Room) : String :=
  if r.exits.isEmpty then "No exits" else "Exits: " ++ String.intercalate ", " r.exits

/-- Room.description: feature header, optional raw description, Chamber
size/shape lines, the remaining detail keys in mapping order, then the exits
line.  A missing or empty feature name renders as "Empty room". -/
def Room.description (r : Room) : String :=
  match r.main_feature with
  | none => "Empty room"
  | some feature =>
    if feature = "" then "Empty room"
    else
      let result := feature ++ ":\n"
      let result :=
        match r.details.lookup "description" with
        | some d => result ++ d ++ "\n"
        | none => result
      let result :=
        if feature = "Chamber" then
          let result :=
            match r.details.lookup "size" with
            | some v => result ++ "Size: " ++ v ++ "\n"
            | none => result
          match r.details.lookup "shape" with
          | some v => result ++ "Shape: " ++ v ++ "\n"
          | none => result
        else result
      let result := r.details.foldl
        (fun acc kv =>
          if kv.1 = "description" ∨ kv.1 = "size" ∨ kv.1 = "shape" then acc
          else acc ++ py_capitalize kv.1 ++ ": " ++ kv.2 ++ "\n") result
      result ++ r.exits_line

/-- The dictionary Room.to_dict produces and Room.from_dict consumes. -/
structure RoomDict where
  id : Option Int
  main_feature : Option String
  details : List (String × String)
  exits : List String
deriving DecidableEq

/-- Room.to_dict: copy the four fields into a dictionary. -/
def Room.to_dict (r : Room) : RoomDict :=
  { id := r.id, main_feature := r.main_feature, details := r.details, exits := r.exits }

/-- Room.from_dict: rebuild through the constructor, then restore the id. -/
def Room.from_dict (data : RoomDict) : Room :=
  let room := Room.make data.main_feature (some data.details) (some data.exits)
  { room with id := data.id }

/-- A Dungeon record (models/dungeon.py): name, ordered rooms, creation
timestamp text and free-form notes. -/
structure Dungeon where
  name : String
  rooms : List Room := []
  created_at : String
  notes : String := ""
deriving DecidableEq

/-- Dungeon.__init__: empty room list, the construction-time timestamp text
passed in as `now`, empty notes. -/
def Dungeon.new (name : String) (now : String) : Dungeon :=
  { name := name, rooms := [], created_at := now, notes := "" }

/-- Dungeon.add_room: the room's id is set from its position (length + 1)
and the room is appended; the updated room is also returned. -/
def Dungeon.add_room (d : Dungeon) (room : Room) : Dungeon × Room :=
  let room := { room with id := some ((d.rooms.length : Int) + 1) }
  ({ d with rooms := d.rooms ++ [room] }, room)

/-- Dungeon.get_room: linear scan for the first room whose id equals the
requested id. -/
def Dungeon.get_room (d : Dungeon) (room_id : Int) : Option Room :=
  d.rooms.find? (fun room => room.id == some room_id)

/-- The dictionary Dungeon.to_dict produces and Dungeon.load consumes. -/
structure DungeonDict where
  name : String
  created_at : String
  notes : String
  rooms : List RoomDict
deriving DecidableEq

/-- Dungeon.to_dict: the three scalar fields plus every room serialized in
order. -/
def Dungeon.to_dict (d : Dungeon) : DungeonDict :=
  { name := d.name, created_at := d.created_at, notes := d.notes,
    rooms := d.rooms.map Room.to_dict }

/-- The record-rebuilding part of Dungeon.load: construct a dungeon with the
stored name (the constructor stamps a fresh `now`, immediately overwritten
by the stored created_at and notes), then append each room rebuilt by
Room.from_dict directly, bypassing add_room so stored ids are preserved. -/
def Dungeon.load_dict (data : DungeonDict) (now : String) : Dungeon :=
  let dungeon := Dungeon.new data.name now
  let dungeon := { dungeon with created_at := data.created_at, notes := data.notes }
  { dungeon with rooms := data.rooms.map Room.from_dict }

theorem room_round_trip (r : Room) : Room.from_dict (Room.to_dict r) = r := by
  cases r
  simp [Room.from_dict, Room.to_dict, Room.make]

theorem map_room_round_trip (rooms : List Room) :
    rooms.map (fun r => Room.from_dict (Room.to_dict r)) = rooms := by
  induction rooms with
  | nil => rfl
  | cons r rest ih => simp [room_round_trip, ih]

/-- C3: serialization is a lossless round trip with no regeneration on
load: rebuilding a dungeon from its own serialized dictionary reproduces an
identical dungeon, whatever fresh timestamp the loading constructor would
stamp, and on rooms from_dict inverts to_dict exactly (same id,
main_feature, details and exits). -/
theorem claim_C3 (d : Dungeon) (now : String) :
    Dungeon.load_dict (Dungeon.to_dict d) now = d ∧
    (∀ r : Room, Room.from_dict (Room.to_dict r) = r) := by
  constructor
  · cases d
    simp [Dungeon.load_dict, Dungeon.to_dict, Dungeon.new, List.map_map,
      Function.comp_def, map_room_round_trip]
  · exact room_round_trip

/-- Does a needle occur at the head of a character list? -/
def leading_match : List Char → List Char → Bool
  | [], _ => true
  | _ :: _, [] => false
  | c :: cs, d :: ds => c == d && leading_match cs ds

/-- Does the needle occur anywhere in the haystack character list? -/
def has_sub (needle : List Char) : List Char → Bool
  | [] => leading_match needle []
  | c :: rest => leading_match needle (c :: rest) || has_sub needle rest

/-- Python's case-sensitive substring test `needle in haystack`. -/
def contains_sub (haystack needle : String) : Bool :=
  has_sub needle.data haystack.data

/-- The keyword-matching policy of generate_exits: the fixed if/elif chain
over the resolved entry's name, first match winning, with ["Main entrance"]
when nothing matches. -/
def parse_exits (exit_desc : String) : List String :=
  if contains_sub exit_desc "No additional exits" then ["Main entrance"]
  else if contains_sub exit_desc "1 additional exit" then ["Main entrance", "Side passage"]
  else if contains_sub exit_desc "2 additional exits" then
    ["Main entrance", "Side passage", "Back door"]
  else if contains_sub exit_desc "sealed exit" then ["Main entrance", "Sealed door"]
  else if contains_sub exit_desc "trapped exit" then ["Main entrance", "Trapped door"]
  else if contains_sub exit_desc "hidden exit" then ["Main entrance", "Hidden passage"]
  else ["Main entrance"]

/-- RoomGenerator.generate_exits: load the "exits" table, defaulting to
["1 exit"] when it is missing or resolves to no entry; otherwise interpret
the resolved entry's name through the keyword policy. -/
def generate_exits (store : String → Option ProbabilityTable) (rolls : Nat → Int) (k : Nat) :
    List String × Nat :=
  match store "exits" with
  | none => (["1 exit"], k)
  | some exits_table =>
    match roll_on_table_draw rolls k exits_table.entries with
    | (none, k) => (["1 exit"], k)
    | (some exits_entry, k) => (parse_exits exits_entry.name, k)

/-- RoomGenerator.generate_corridor: missing table or no resolved entry
default to a simple corridor; a truthy roll_again flag adds a note. -/
def generate_corridor (store : String → Option ProbabilityTable) (rolls : Nat → Int) (k : Nat) :
    List (String × String) × Nat :=
  match store "corridor_details" with
  | none => ([("description", "Simple corridor")], k)
  | some corridor_table =>
    match roll_on_table_draw rolls k corridor_table.entries with
    | (none, k) => ([("description", "Simple corridor")], k)
    | (some corridor_entry, k) =>
      let details := [("description", corridor_entry.name)]
      let details :=
        match corridor_entry.roll_again with
        | some true => details ++ [("note", "Roll again on the main feature table")]
        | _ => details
      (details, k)

/-- The fixed inline chamber size table (entries cover rolls 1 to 20). -/
def size_table : List TableEntry :=
  [{ name := "Closet-sized", min := 1, max := 2 },
   { name := "15 feet (5 m) across", min := 3, max := 6 },
   { name := "30 feet (9 m) across", min := 7, max := 15 },
   { name := "50 feet (15 m) across", min := 16, max := 18 },
   { name := "60 feet (18 m) across", min := 19, max := 19 },
   { name := "90 feet (27 m) across", min := 20, max := 20 }]

/-- The fixed inline chamber shape table (entries cover rolls 1 to 20). -/
def shape_table : List TableEntry :=
  [{ name := "Circle", min := 1, max := 2 },
   { name := "Square", min := 3, max := 4 },
   { name := "Rectangle", min := 5, max := 17 },
   { name := "Hexagon", min := 18, max := 18 },
   { name := "Half circle", min := 19, max := 19 },
   { name := "Triangle", min := 20, max := 20 }]

/-- RoomGenerator.generate_chamber: roll on the two inline tables, with
"Medium sized" / "Rectangular" fallbacks should a roll resolve to no entry,
plus a fixed features placeholder. -/
def generate_chamber (rolls : Nat → Int) (k : Nat) : List (String × String) × Nat :=
  let sk := roll_on_table_draw rolls k size_table
  let hk := roll_on_table_draw rolls sk.2 shape_table
  ([("size", match sk.1 with | some e => e.name | none => "Medium sized"),
    ("shape", match hk.1 with | some e => e.name | none => "Rectangular"),
    ("features", "Various furnishings and decorations")], hk.2)

/-- RoomGenerator.generate_creature: fixed description plus a creature type
built from a d20 draw reduced mod 10. -/
def generate_creature (rolls : Nat → Int) (k : Nat) : List (String × String) × Nat :=
  ([("description", "A creature lurks here"),
    ("creature_type", "Level " ++ toString (rolls k % 10 + 1) ++ " hostile entity")], k + 1)

def generate_explorers : List (String × String) :=
  [("description", "A group of explorers is here")]

def generate_interstitial_cavity : List (String × String) :=
  [("description", "A vast interstitial cavity")]

def generate_accessway : List (String × String) :=
  [("description", "An accessway connecting areas")]

def generate_rupture : List (String × String) :=
  [("description", "A rupture in the structure")]

def generate_shaft : List (String × String) :=
  [("description", "A vertical shaft")]

def generate_abhuman_colony : List (String × String) :=
  [("description", "An abhuman colony resides here")]

def generate_integrated_machine : List (String × String) :=
  [("description", "An integrated machine dominates this area")]

def generate_matter_leak : List (String × String) :=
  [("description", "A strange matter leak is present")]

def generate_energy_discharge : List (String × String) :=
  [("description", "Energy discharges pulse through this area")]

def generate_weird_event : List (String × String) :=
  [("description", "A bizarre phenomenon occurs here")]

def generate_vault : List (String × String) :=
  [("description", "A secure vault containing treasures")]

def generate_relic_chamber : List (String × String) :=
  [("description", "A chamber housing a powerful relic")]

/-- The feature_generators dispatch of generate_room: the fixed registry of
fifteen feature names, with the "Empty room" default for unknown names. -/
def generate_details (store : String → Option ProbabilityTable) (rolls : Nat → Int) (k : Nat)
    (main_feature : String) : List (String × String) × Nat :=
  if main_feature = "Corridor" then generate_corridor store rolls k
  else if main_feature = "Chamber" then generate_chamber rolls k
  else if main_feature = "Creature" then generate_creature rolls k
  else if main_feature = "Explorers" then (generate_explorers, k)
  else if main_feature = "Interstitial cavity" then (generate_interstitial_cavity, k)
  else if main_feature = "Accessway" then (generate_accessway, k)
  else if main_feature = "Rupture" then (generate_rupture, k)
  else if main_feature = "Shaft" then (generate_shaft, k)
  else if main_feature = "Abhuman Colony" then (generate_abhuman_colony, k)
  else if main_feature = "Integrated Machine" then (generate_integrated_machine, k)
  else if main_feature = "Matter leak" then (generate_matter_leak, k)
  else if main_feature = "Energy discharge" then (generate_energy_discharge, k)
  else if main_feature = "Weird event" then (generate_weird_event, k)
  else if main_feature = "Vault" then (generate_vault, k)
  else if main_feature = "Relic Chamber" then (generate_relic_chamber, k)
  else ([("description", "Empty room")], k)

/-- RoomGenerator.generate_room: load the mandatory main_features table and
resolve an entry from it, raising a hard error if either step fails; then
generate feature details and exits and assemble the Room (id unset). -/
def generate_room (store : String → Option ProbabilityTable) (rolls : Nat → Int) (k : Nat) :
    Except String (Room × Nat) :=
  match store "main_features" with
  | none => Except.error "Could not load main_features table"
  | some main_feature_table =>
    match roll_on_table_draw rolls k main_feature_table.entries with
    | (none, _) => Except.error "Failed to roll on main_features table"
    | (some main_feature_entry, k) =>
      let main_feature := main_feature_entry.name
      let dk := generate_details store rolls k main_feature
      let ek := generate_exits store rolls dk.2
      Except.ok (Room.make (some main_feature) (some dk.1) (some ek.1), ek.2)

/-- The room-generation loop of DungeonGenerator.generate_dungeon: append
`n` freshly generated rooms, propagating any hard error. -/
def generate_rooms (store : String → Option ProbabilityTable) (rolls : Nat → Int) :
    Nat → Dungeon → Nat → Except String (Dungeon × Nat)
  | 0, dungeon, k => Except.ok (dungeon, k)
  | n + 1, dungeon, k =>
    match generate_room store rolls k with
    | Except.error e => Except.error e
    | Except.ok (room, k) => generate_rooms store rolls n (dungeon.add_room room).1 k

/-- DungeonGenerator.generate_dungeon: a fresh dungeon with the given name,
filled by the room-generation loop. -/
def generate_dungeon (store : String → Option ProbabilityTable) (rolls : Nat → Int) (k : Nat)
    (num_rooms : Nat) (name now : String) : Except String (Dungeon × Nat) :=
  generate_rooms store rolls num_rooms (Dungeon.new name now) k

/-- The replacement loop of DungeonGenerator.regenerate_room: overwrite the
first room whose id matches, leaving everything else in place. -/
def replace_room_by_id : List Room → Int → Room → List Room
  | [], _, _ => []
  | r :: rest, room_id, new_room =>
    if r.id == some room_id then new_room :: rest
    else r :: replace_room_by_id rest room_id new_room

/-- DungeonGenerator.regenerate_room: NotFound (here `none`) when no room
has the requested id, leaving the dungeon untouched; otherwise generate a
brand-new room, force its id to the requested one, and replace the matching
entry in place. -/
def regenerate_room (store : String → Option ProbabilityTable) (rolls : Nat → Int) (k : Nat)
    (dungeon : Dungeon) (room_id : Int) : Except String (Option Room × Dungeon × Nat) :=
  match dungeon.get_room room_id with
  | none => Except.ok (none, dungeon, k)
  | some _ =>
    match generate_room store rolls k with
    | Except.error e => Except.error e
    | Except.ok (new_room, k) =>
      let new_room := { new_room with id := some room_id }
      Except.ok (some new_room,
        { dungeon with rooms := replace_room_by_id dungeon.rooms room_id new_room }, k)

/-- A minimal table store carrying only a one-entry main_features table,
used to exercise the generators on concrete input. -/
def main_features_table : ProbabilityTable :=
  { entries := [{ name := "Vault", min := 1, max := 100 }] }

def store0 : String → Option ProbabilityTable :=
  fun table_name => if table_name = "main_features" then some main_features_table else none

def rolls0 : Nat → Int := fun _ => 1

theorem generate_rooms_spec (store : String → Option ProbabilityTable) (rolls : Nat → Int) :
    ∀ (n : Nat) (d : Dungeon) (k : Nat) (d' : Dungeon) (k' : Nat),
      generate_rooms store rolls n d k = Except.ok (d', k') →
      d'.name = d.name ∧ d'.created_at = d.created_at ∧ d'.notes = d.notes ∧
      d'.rooms.map Room.id =
        d.rooms.map Room.id ++
          (List.range n).map (fun i : Nat => some ((d.rooms.length : Int) + i + 1)) := by
  intro n
  induction n with
  | zero =>
    intro d k d' k' h
    simp only [generate_rooms, Except.ok.injEq, Prod.mk.injEq] at h
    obtain ⟨h1, -⟩ := h
    subst h1
    simp
  | succ n ih =>
    intro d k d' k' h
    simp only [generate_rooms] at h
    cases hr : generate_room store rolls k with
    | error e =>
      rw [hr] at h
      exact absurd h (by simp)
    | ok rk =>
      obtain ⟨room, k2⟩ := rk
      rw [hr] at h
      obtain ⟨hname, hcreated, hnotes, hmap⟩ := ih (d.add_room room).1 k2 d' k' h
      simp only [Dungeon.add_room] at hname hcreated hnotes hmap
      refine ⟨hname, hcreated, hnotes, ?_⟩
      rw [hmap, List.range_succ_eq_map]
      simp only [List.map_append, List.map_cons, List.map_nil, List.map_map,
        List.length_append, List.length_cons, List.length_nil, List.append_assoc,
        List.singleton_append, List.nil_append, Function.comp_def, Nat.cast_zero, add_zero]
      congr 1
      congr 1
      apply List.map_congr_left
      intro i _
      congr 1
      push_cast
      ring

/-- C2: whenever generate_dungeon returns a dungeon, that dungeon carries
the requested name and exactly n rooms whose ids are 1, 2, ..., n in
sequence order; and add_room always assigns the id from the room's position
(current length + 1) at the moment the room is appended. -/
theorem claim_C2 (store : String → Option ProbabilityTable) (rolls : Nat → Int) (k : Nat)
    (n : Nat) (name now : String) (d : Dungeon) (k' : Nat)
    (h : generate_dungeon store rolls k n name now = Except.ok (d, k')) :
    d.name = name ∧ d.rooms.length = n ∧
    d.rooms.map Room.id = (List.range n).map (fun i : Nat => some ((i : Int) + 1)) ∧
    (∀ (d0 : Dungeon) (room : Room),
      ((d0.add_room room).2).id = some ((d0.rooms.length : Int) + 1) ∧
      (d0.add_room room).1.rooms = d0.rooms ++ [(d0.add_room room).2]) := by
  obtain ⟨hname, -, -, hmap⟩ := generate_rooms_spec store rolls n (Dungeon.new name now) k d k' h
  simp only [Dungeon.new] at hname hmap
  simp only [List.map_nil, List.length_nil, List.nil_append, Nat.cast_zero] at hmap
  have hmap' : d.rooms.map Room.id = (List.range n).map (fun i : Nat => some ((i : Int) + 1)) := by
    rw [hmap]
    apply List.map_congr_left
    intro i _
    congr 1
    ring
  refine ⟨hname, ?_, hmap', ?_⟩
  · have hlen := congrArg List.length hmap'
    simpa using hlen
  · intro d0 room
    exact ⟨rfl, rfl⟩

/-- A concrete two-room generation on the minimal store succeeds with the
requested name and ids [1, 2]. -/
theorem claim_C2_witness :
    ∃ d k', generate_dungeon store0 rolls0 0 2 "Test" "t0" = Except.ok (d, k') ∧
      d.name = "Test" ∧ d.rooms.map Room.id = [some 1, some 2] := by
  refine ⟨_, _, rfl, ?_, ?_⟩
  · exact (claim_C2 store0 rolls0 0 2 "Test" "t0" _ _ rfl).1
  · rw [(claim_C2 store0 rolls0 0 2 "Test" "t0" _ _ rfl).2.2.1]
    decide

theorem sum_rolls_eq_finset (rolls : Nat → Int) :
    ∀ (n : Nat) (k : Nat),
      sum_rolls rolls k n = (Finset.range n).sum (fun i => rolls (k + i)) := by
  intro n
  induction n with
  | zero => intro k; simp [sum_rolls]
  | succ n ih =>
    intro k
    rw [sum_rolls, ih (k + 1), Finset.sum_range_succ']
    have hsum : (Finset.range n).sum (fun i => rolls (k + 1 + i)) =
        (Finset.range n).sum (fun i => rolls (k + (i + 1))) := by
      apply Finset.sum_congr rfl
      intro i _
      congr 1
      omega
    rw [hsum, Nat.add_zero]
    exact add_comm _ _

/-- C8: with positive dice count and sides, roll_dice returns the sum of
that many independent draws plus the modifier (advancing the draw cursor by
the count); with a non-positive count or sides it returns the modifier
unchanged, drawing nothing and raising no error. -/
theorem claim_C8 (rolls : Nat → Int) (k : Nat) (num_dice sides modifier : Int) :
    (0 < num_dice → 0 < sides →
      roll_dice rolls k num_dice sides modifier =
        ((Finset.range num_dice.toNat).sum (fun i => rolls (k + i)) + modifier,
         k + num_dice.toNat)) ∧
    (num_dice ≤ 0 ∨ sides ≤ 0 → roll_dice rolls k num_dice sides modifier = (modifier, k)) := by
  constructor
  · intro hn hs
    have hcond : ¬ (num_dice ≤ 0 ∨ sides ≤ 0) := by
      push_neg
      exact ⟨hn, hs⟩
    rw [roll_dice, if_neg hcond, sum_rolls_eq_finset]
  · intro hcond
    rw [roll_dice, if_pos hcond]

/-- Rolling 3d6+2 with every draw equal to 4 returns 14 and consumes three
draws; rolling 0 dice returns the modifier untouched. -/
theorem claim_C8_witness :
    roll_dice (fun _ => 4) 0 3 6 2 = (14, 3) ∧ roll_dice (fun _ => 4) 0 0 6 2 = (2, 0) := by
  constructor
  · rw [(claim_C8 (fun _ => 4) 0 3 6 2).1 (by decide) (by decide)]
    decide
  · exact (claim_C8 (fun _ => 4) 0 0 6 2).2 (Or.inl (by decide))

theorem replace_room_spec :
    ∀ (l : List Room) (room_id : Int) (new_room r0 : Room),
      l.find? (fun r => r.id == some room_id) = some r0 →
      ∃ (i : Nat) (hi : i < l.length),
        (l.get ⟨i, hi⟩).id = some room_id ∧
        (∀ (j : Nat) (hj : j < i), (l.get ⟨j, Nat.lt_trans hj hi⟩).id ≠ some room_id) ∧
        replace_room_by_id l room_id new_room = l.set i new_room := by
  intro l
  induction l with
  | nil =>
    intro room_id new_room r0 h
    exact absurd h (by simp)
  | cons r rest ih =>
    intro room_id new_room r0 h
    by_cases hb : (r.id == some room_id) = true
    · refine ⟨0, Nat.succ_pos rest.length, ?_, ?_, ?_⟩
      · show r.id = some room_id
        exact eq_of_beq hb
      · intro j hj
        exact absurd hj (Nat.not_lt_zero j)
      · simp only [replace_room_by_id, hb, if_true, List.set]
    · rw [List.find?_cons_of_neg _ (by simpa using hb)] at h
      obtain ⟨i, hi, hid, hfirst, hrepl⟩ := ih room_id new_room r0 h
      refine ⟨i + 1, Nat.succ_lt_succ hi, hid, ?_, ?_⟩
      · intro j hj
        cases j with
        | zero =>
          intro hcontra
          simp only [List.get] at hcontra
          exact hb (by simp [hcontra])
        | succ j' => exact hfirst j' (Nat.lt_of_succ_lt_succ hj)
      · simp only [replace_room_by_id, hb, Bool.false_eq_true, if_false, List.set]
        rw [hrepl]

/-- C4: when no room carries the requested id, regenerate_room reports
NotFound (none) and leaves the dungeon completely untouched; when a room
with the id exists and a replacement is generated, exactly the first
position holding that id is overwritten in place with the new room whose id
is forced to the requested one, every other position keeping its old room. -/
theorem claim_C4 (store : String → Option ProbabilityTable) (rolls : Nat → Int) (k : Nat)
    (d : Dungeon) (room_id : Int) :
    (d.get_room room_id = none →
      regenerate_room store rolls k d room_id = Except.ok (none, d, k)) ∧
    (∀ (r0 new_room : Room) (k' : Nat),
      d.get_room room_id = some r0 →
      generate_room store rolls k = Except.ok (new_room, k') →
      ∃ (i : Nat) (hi : i < d.rooms.length),
        (d.rooms.get ⟨i, hi⟩).id = some room_id ∧
        (∀ (j : Nat) (hj : j < i), (d.rooms.get ⟨j, Nat.lt_trans hj hi⟩).id ≠ some room_id) ∧
        regenerate_room store rolls k d room_id =
          Except.ok (some { new_room with id := some room_id },
            { d with rooms := d.rooms.set i { new_room with id := some room_id } }, k')) := by
  constructor
  · intro h
    simp only [regenerate_room, h]
  · intro r0 new_room k' hfound hgen
    obtain ⟨i, hi, hid, hfirst, hrepl⟩ :=
      replace_room_spec d.rooms room_id { new_room with id := some room_id } r0 hfound
    refine ⟨i, hi, hid, hfirst, ?_⟩
    simp only [regenerate_room, hfound, hgen, hrepl]

/-- On a dungeon with no rooms, regenerating room 99 reports NotFound and
leaves the dungeon unchanged. -/
theorem claim_C4_witness :
    regenerate_room store0 rolls0 0 { name := "D", created_at := "t", notes := "", rooms := [] } 99 =
      Except.ok (none, { name := "D", created_at := "t", notes := "", rooms := [] }, 0) :=
  (claim_C4 store0 rolls0 0 { name := "D", created_at := "t", notes := "", rooms := [] } 99).1 rfl

/-- C5: when the exits table is missing from the store, or it resolves to no
entry (possible only when its entry list is empty), exit generation returns
the hardcoded single-exit default ["1 exit"], which has the same single-exit
shape as the no-match default ["Main entrance"]. -/
theorem claim_C5 (store : String → Option ProbabilityTable) (rolls : Nat → Int) (k : Nat) :
    (store "exits" = none → generate_exits store rolls k = (["1 exit"], k)) ∧
    (∀ t, store "exits" = some t → t.entries = [] →
      generate_exits store rolls k = (["1 exit"], k)) ∧
    (["1 exit"] : List String).length = (["Main entrance"] : List String).length := by
  refine ⟨?_, ?_, rfl⟩
  · intro h
    simp only [generate_exits, h]
  · intro t ht hent
    simp only [generate_exits, ht, hent, roll_on_table_draw, List.isEmpty_nil, if_true]

/-- On the minimal store, which has no exits table, exit generation yields
the single-exit default without consuming a draw. -/
theorem claim_C5_witness : generate_exits store0 rolls0 0 = (["1 exit"], 0) :=
  (claim_C5 store0 rolls0 0).1 rfl

/-- C6: exit-text interpretation is case-sensitive substring matching in the
fixed listed order with first match winning: an entry name containing
"2 additional exits" but matching neither earlier pattern yields exactly
["Main entrance", "Side passage", "Back door"]; a name matching none of the
six patterns yields exactly ["Main entrance"]; and generate_exits feeds the
resolved entry's name through exactly this interpretation. -/
theorem claim_C6 (exit_desc : String) :
    (contains_sub exit_desc "No additional exits" = false →
      contains_sub exit_desc "1 additional exit" = false →
      contains_sub exit_desc "2 additional exits" = true →
      parse_exits exit_desc = ["Main entrance", "Side passage", "Back door"]) ∧
    (contains_sub exit_desc "No additional exits" = false →
      contains_sub exit_desc "1 additional exit" = false →
      contains_sub exit_desc "2 additional exits" = false →
      contains_sub exit_desc "sealed exit" = false →
      contains_sub exit_desc "trapped exit" = false →
      contains_sub exit_desc "hidden exit" = false →
      parse_exits exit_desc = ["Main entrance"]) ∧
    (∀ (store : String → Option ProbabilityTable) (rolls : Nat → Int) (k k' : Nat)
        (t : ProbabilityTable) (entry : TableEntry),
      store "exits" = some t →
      roll_on_table_draw rolls k t.entries = (some entry, k') →
      generate_exits store rolls k = (parse_exits entry.name, k')) := by
  refine ⟨?_, ?_, ?_⟩
  · intro h1 h2 h3
    simp only [parse_exits, h1, h2, h3, Bool.false_eq_true, if_false, if_true]
  · intro h1 h2 h3 h4 h5 h6
    simp only [parse_exits, h1, h2, h3, h4, h5, h6, Bool.false_eq_true, if_false]
  · intro store rolls k k' t entry ht hdraw
    simp only [generate_exits, ht, hdraw]

/-- The entry name "Room has 2 additional exits" matches no earlier pattern
and produces exactly the three-exit list. -/
theorem claim_C6_witness :
    parse_exits "Room has 2 additional exits" =
      ["Main entrance", "Side passage", "Back door"] :=
  (claim_C6 "Room has 2 additional exits").1 (by decide) (by decide) (by decide)

theorem generate_room_ok (store : String → Option ProbabilityTable) (rolls : Nat → Int)
    (k : Nat) (t : ProbabilityTable) (ht : store "main_features" = some t)
    (hne : t.entries ≠ []) (e : TableEntry) (he : roll_on_table (rolls k) t.entries = some e) :
    generate_room store rolls k =
      Except.ok (Room.make (some e.name)
          (some (generate_details store rolls (k + 1) e.name).1)
          (some (generate_exits store rolls
            (generate_details store rolls (k + 1) e.name).2).1),
        (generate_exits store rolls (generate_details store rolls (k + 1) e.name).2).2) := by
  have hempty : t.entries.isEmpty = false := by
    cases hent : t.entries with
    | nil => exact absurd hent hne
    | cons x rest => rfl
  simp only [generate_room, ht, roll_on_table_draw, hempty, Bool.false_eq_true, if_false, he]

/-- C7: generate_room signals a hard error exactly when the mandatory
main_features table is missing from the store or has an empty entry list;
whenever that table is present and non-empty, room generation completes
(missing feature-detail or exits sub-tables are absorbed by hardcoded
defaults and never propagate an error). -/
theorem claim_C7 (store : String → Option ProbabilityTable) (rolls : Nat → Int) (k : Nat) :
    ((∃ msg, generate_room store rolls k = Except.error msg) ↔
      store "main_features" = none ∨
        ∃ t, store "main_features" = some t ∧ t.entries = []) ∧
    (∀ t, store "main_features" = some t → t.entries ≠ [] →
      ∃ room k', generate_room store rolls k = Except.ok (room, k')) := by
  constructor
  · constructor
    · rintro ⟨msg, hmsg⟩
      by_contra hrhs
      push_neg at hrhs
      obtain ⟨h1, h2⟩ := hrhs
      cases hm : store "main_features" with
      | none => exact h1 hm
      | some t =>
        have hne := h2 t hm
        obtain ⟨e, he, -⟩ := roll_on_table_some_mem (rolls k) t.entries hne
        rw [generate_room_ok store rolls k t hm hne e he] at hmsg
        exact Except.noConfusion hmsg
    · rintro (hm | ⟨t, hm, hent⟩)
      · exact ⟨"Could not load main_features table", by simp [generate_room, hm]⟩
      · refine ⟨"Failed to roll on main_features table", ?_⟩
        simp only [generate_room, hm, hent, roll_on_table_draw, List.isEmpty_nil, if_true]
  · intro t ht hne
    obtain ⟨e, he, -⟩ := roll_on_table_some_mem (rolls k) t.entries hne
    exact ⟨_, _, generate_room_ok store rolls k t ht hne e he⟩

/-- On the minimal store, whose main_features table is present and
non-empty, room generation completes despite every sub-table being
missing. -/
theorem claim_C7_witness :
    ∃ room k', generate_room store0 rolls0 0 = Except.ok (room, k') :=
  (claim_C7 store0 rolls0 0).2 main_features_table rfl (by decide)

/-- C9: chamber details always consist of exactly the keys size, shape and
features in that order, the size being one of the six inline size-table
names and the shape one of the six inline shape-table names; the
"Medium sized" and "Rectangular" fallbacks are unreachable because the
resolver never returns None on the non-empty inline tables, whatever d100
value (even 21 to 100, outside the tables' 1 to 20 coverage) is drawn; two
draws are always consumed. -/
theorem claim_C9 (rolls : Nat → Int) (k : Nat) :
    ∃ size_name shape_name,
      (generate_chamber rolls k).1 =
        [("size", size_name), ("shape", shape_name),
         ("features", "Various furnishings and decorations")] ∧
      size_name ∈ size_table.map TableEntry.name ∧
      shape_name ∈ shape_table.map TableEntry.name ∧
      size_name ≠ "Medium sized" ∧ shape_name ≠ "Rectangular" ∧
      (generate_chamber rolls k).2 = k + 2 := by
  obtain ⟨se, hse, hsmem⟩ := roll_on_table_some_mem (rolls k) size_table (by decide)
  obtain ⟨he, hhe, hhmem⟩ := roll_on_table_some_mem (rolls (k + 1)) shape_table (by decide)
  have hdraw1 : roll_on_table_draw rolls k size_table = (some se, k + 1) := by
    simp only [roll_on_table_draw, show size_table.isEmpty = false from rfl,
      Bool.false_eq_true, if_false, hse]
  have hdraw2 : roll_on_table_draw rolls (k + 1) shape_table = (some he, k + 2) := by
    simp only [roll_on_table_draw, show shape_table.isEmpty = false from rfl,
      Bool.false_eq_true, if_false, hhe]
  have hsname : se.name ∈ size_table.map TableEntry.name :=
    List.mem_map_of_mem TableEntry.name hsmem
  have hhname : he.name ∈ shape_table.map TableEntry.name :=
    List.mem_map_of_mem TableEntry.name hhmem
  have hsnot : ("Medium sized" : String) ∉ size_table.map TableEntry.name := by decide
  have hhnot : ("Rectangular" : String) ∉ shape_table.map TableEntry.name := by decide
  refine ⟨se.name, he.name, ?_, hsname, hhname, ?_, ?_, ?_⟩
  · simp only [generate_chamber, hdraw1, hdraw2]
  · intro hcontra
    exact hsnot (hcontra ▸ hsname)
  · intro hcontra
    exact hhnot (hcontra ▸ hhname)
  · simp only [generate_chamber, hdraw1, hdraw2]

theorem parse_exits_length_bounds (s : String) :
    1 ≤ (parse_exits s).length ∧ (parse_exits s).length ≤ 3 := by
  unfold parse_exits
  repeat' split
  all_goals decide

theorem generate_exits_length (store : String → Option ProbabilityTable) (rolls : Nat → Int)
    (k : Nat) :
    1 ≤ (generate_exits store rolls k).1.length ∧ (generate_exits store rolls k).1.length ≤ 3 := by
  cases hm : store "exits" with
  | none => simp [generate_exits, hm]
  | some t =>
    rcases hdraw : roll_on_table_draw rolls k t.entries with ⟨oe, k2⟩
    cases oe with
    | none => simp [generate_exits, hm, hdraw]
    | some e =>
      simp only [generate_exits, hm, hdraw]
      exact parse_exits_length_bounds e.name

theorem exits_line_of_ne_nil (r : Room) (h : r.exits ≠ []) :
    Room.exits_line r = "Exits: " ++ String.intercalate ", " r.exits := by
  unfold Room.exits_line
  rw [if_neg]
  intro hcontra
  exact h (by simpa using hcontra)

/-- C10: every branch of exit generation produces a list of one to three
exit strings, so every room generate_room returns has a non-empty exits
list, and the "No exits" branch of Room.description is not taken for it:
its exits line is the "Exits: ..." rendering. -/
theorem claim_C10 (store : String → Option ProbabilityTable) (rolls : Nat → Int) (k : Nat) :
    (1 ≤ (generate_exits store rolls k).1.length ∧
      (generate_exits store rolls k).1.length ≤ 3) ∧
    (∀ (room : Room) (k' : Nat), generate_room store rolls k = Except.ok (room, k') →
      room.exits ≠ [] ∧ 1 ≤ room.exits.length ∧ room.exits.length ≤ 3 ∧
      Room.exits_line room = "Exits: " ++ String.intercalate ", " room.exits) := by
  refine ⟨generate_exits_length store rolls k, ?_⟩
  intro room k' h
  cases hm : store "main_features" with
  | none =>
    simp only [generate_room, hm] at h
    exact absurd h (by simp)
  | some t =>
    by_cases hent : t.entries = []
    · simp only [generate_room, hm, hent, roll_on_table_draw, List.isEmpty_nil, if_true] at h
      exact absurd h (by simp)
    · obtain ⟨e, he, -⟩ := roll_on_table_some_mem (rolls k) t.entries hent
      rw [generate_room_ok store rolls k t hm hent e he] at h
      simp only [Except.ok.injEq, Prod.mk.injEq] at h
      obtain ⟨hroom, -⟩ := h
      have hexits : room.exits =
          (generate_exits store rolls (generate_details store rolls (k + 1) e.name).2).1 := by
        rw [← hroom]
        simp [Room.make]
      have hb := generate_exits_length store rolls (generate_details store rolls (k + 1) e.name).2
      rw [← hexits] at hb
      have hne : room.exits ≠ [] := by
        intro hnil
        rw [hnil] at hb
        exact absurd hb.1 (by decide)
      exact ⟨hne, hb.1, hb.2, exits_line_of_ne_nil room hne⟩

/-- A concretely generated room has the non-empty default exit list and its
description's exit line takes the listing branch. -/
theorem claim_C10_witness :
    ∃ room k', generate_room store0 rolls0 0 = Except.ok (room, k') ∧ room.exits ≠ [] := by
  refine ⟨_, _, rfl, ?_⟩
  exact ((claim_C10 store0 rolls0 0).2 _ _ rfl).1
